import Mathlib

/-!
Verification development for the PSBots battle-orchestration engine
(`PSBots.js` / the evolved PSBots variant bundled with `MetagameHelper.js`).

The JavaScript source is shallowly embedded: pure string manipulation is
modelled over `List Char` / `String`, the promise-based correlator
(`awaitws`) is modelled as a state machine driven by message/timer events,
and the battle choreography promise chain is modelled as a function from
the per-phase inbound message streams to the commands sent and the final
settlement.  JS truthiness of optional strings is modelled explicitly
(`undefined`/missing is `none`; the empty string is falsy).
-/

namespace PSBots

/-- Values of JS as returned by `awaitws` predicates: booleans, strings,
numbers, or `undefined` (the value of a bare `return;`). -/
inductive JSVal where
  | jbool (b : Bool)
  | jstr (s : String)
  | jnum (n : Int)
  | jundefined
  deriving DecidableEq, Repr

/-- Truthiness in JS of a possibly-missing string (`undefined`/absent is
falsy, `""` is falsy, every other string truthy). -/
def truthyStr : Option String → Bool
  | none => false
  | some s => s ≠ ""

/-- Model of `msgToRaw` from the source: wraps a command string in the one-element
array-literal wire envelope, msg becomes `["` ++ msg ++ `"]`. -/
def msgToRaw (msg : String) : String :=
  "[\"" ++ msg ++ "\"]"

/-- Model of `msgraw.slice(3, -2)`: strip the 3-character frame head and the
2-character frame tail of an inbound frame. -/
def sliceFrame (s : String) : String :=
  ⟨(s.data.drop 3).take ((s.data.drop 3).length - 2)⟩

/-- Model of `s.slice(1)` on a JS string: drop the first character. -/
def sliceOne (s : String) : String :=
  ⟨s.data.drop 1⟩

/-- Is `p` a prefix of `l`?  (Structural helper for  `startsWith` and the
string splitter.) -/
def isPrefixOfL : List Char → List Char → Bool
  | [], _ => true
  | _ :: _, [] => false
  | a :: p, b :: l => a = b && isPrefixOfL p l

/-- Model of JS `s.startsWith(p)`. -/
def jsStartsWith (s p : String) : Bool :=
  isPrefixOfL p.data s.data

/-- Fuelled worker for `jsSplit`: scans `l`, cutting at each occurrence of
the (non-empty) separator.  The fuel only bounds the number of scanning
steps; `l.length + 1` steps always suffice since every step consumes at
least one character. -/
def splitGo (sep : List Char) : Nat → List Char → List Char → List (List Char)
  | 0, acc, _ => [acc.reverse]
  | _ + 1, acc, [] => [acc.reverse]
  | fuel + 1, acc, c :: cs =>
    if isPrefixOfL sep (c :: cs) then
      acc.reverse :: splitGo sep fuel [] ((c :: cs).drop sep.length)
    else
      splitGo sep fuel (c :: acc) cs

/-- Model of JS `s.split(sep)` for a non-empty plain-text separator. -/
def jsSplit (s : String) (sep : String) : List String :=
  (splitGo sep.data (s.data.length + 1) [] s.data).map (fun l => ⟨l⟩)

/-- Model of `data[i]` on a JS array of strings, with `undefined` collapsed to `""`
(the code only ever compares these fields against non-empty literals or
uses them in `startsWith`, where `""` behaves like `undefined`). -/
def fieldD (l : List String) (i : Nat) : String :=
  l.getD i ""

/-! ## The message correlator `awaitws`

`awaitws(ws, timer, predicate)` attaches one `message` listener scoped to
a per-call `AbortController`, plus one timeout.  On each message it runs
the predicate once: `=== true` resolves the promise with the raw message
and aborts the controller; a string return rejects with
`{ reason, msgraw }` and aborts; anything else keeps listening.  The
timeout rejects with the plain string `"Timed out (awaitws)"` and aborts.
Promises settle at most once (later `res`/`rej` calls are no-ops). -/

/-- Settlement failures of one `awaitws` call (and of the battle run built
from such calls).  `predReject reason msgraw` is the rejection value
`{ reason, msgraw }`; `timedOut` is the rejection with
`"Timed out (awaitws)"`; `invalidArg` is the synchronous
`Error("Invalid data in argument.")` thrown by `battle()` validation. -/
inductive RunErr where
  | invalidArg
  | predReject (reason : String) (msgraw : String)
  | timedOut
  deriving DecidableEq, Repr

/-- State of one `awaitws` call: the promise settlement (`none` while
pending) and whether the message listener is still attached (i.e. the
per-call controller has not been aborted). -/
structure AwaitState where
  result : Option (Except RunErr String)
  listener : Bool
  deriving Repr

/-- Settle the promise with a resolution; a no-op if already settled. -/
def settleOk (st : AwaitState) (v : String) : AwaitState :=
  if st.result.isSome then st else { st with result := some (.ok v) }

/-- Settle the promise with a rejection; a no-op if already settled. -/
def settleErr (st : AwaitState) (e : RunErr) : AwaitState :=
  if st.result.isSome then st else { st with result := some (.error e) }

/-- Model of `ctrl.abort()`: deregister the message listener. -/
def abortCtrl (st : AwaitState) : AwaitState :=
  { st with listener := false }

/-- Events that can reach one `awaitws` call: an inbound message on its
websocket, or its timeout firing. -/
inductive AwEvent where
  | msg (m : String)
  | timer
  deriving DecidableEq, Repr

/-- One event step of `awaitws` with predicate `p`.  Mirrors the listener
body (predicate evaluated once; `=== true` resolves then aborts; a string
rejects with `{ reason, msgraw }` then aborts; otherwise nothing) and the
timeout callback (reject with the timeout string, then abort — the
timeout is never cleared, so it can fire after settlement). -/
def awStep (p : String → JSVal) (st : AwaitState) : AwEvent → AwaitState
  | .msg m =>
    if st.listener then
      match p m with
      | .jbool true => abortCtrl (settleOk st m)
      | .jstr r => abortCtrl (settleErr st (.predReject r m))
      | _ => st
    else st
  | .timer => abortCtrl (settleErr st .timedOut)

/-- Run a sequence of events through one `awaitws` call. -/
def awRun (p : String → JSVal) (st : AwaitState) : List AwEvent → AwaitState
  | [] => st
  | e :: es => awRun p (awStep p st e) es

/-- The state in which every `awaitws` call starts: promise pending,
listener attached. -/
def awInit : AwaitState := { result := none, listener := true }

/-! ## PSBots constructor, shutdown and connect -/

/-- One entry of the `auth` array after JS-level inspection: `name` and
`pass` are the given strings (JS truthiness: the empty string is falsy)
and `ws` is the connection handle slot (`none` when the entry carries no
truthy `ws`). -/
structure BotEntry where
  name : String
  pass : String
  ws : Option Unit
  deriving DecidableEq, Repr

/-- The constructor argument: `none` models a value that is not an array;
inside the list, `none` models a falsy entry. -/
def AuthArg : Type := Option (List (Option BotEntry))

/-- The process-wide engine state: the `bots` array and the shared
aborted flag of the shared `AbortController`. -/
structure PSState where
  bots : List BotEntry
  aborted : Bool
  deriving DecidableEq, Repr

/-- Validation in the constructor: throw exactly when the argument is not
an array, or some entry is falsy, lacks a truthy `name`, lacks a truthy
`pass`, or already carries a `ws` handle
(`!Array.isArray(auth) || auth.some((x) => !x || !x.name || !x.pass || x.ws)`). -/
def authBad (auth : AuthArg) : Bool :=
  match auth with
  | none => true
  | some l =>
    l.any (fun x =>
      match x with
      | none => true
      | some e => !truthyStr (some e.name) || !truthyStr (some e.pass) || e.ws.isSome)

/-- The `PSBots` constructor: validates `auth`, then stores it as `bots`
and creates a fresh (unaborted) shared `AbortController`.  On the success
path every entry is a valid `BotEntry`, so the `getD` default is never
used. -/
def psNew (auth : AuthArg) : Except String PSState :=
  if authBad auth then .error "Invalid authentication data."
  else .ok
    { bots := (auth.getD []).map (fun x => x.getD ⟨"", "", none⟩)
      aborted := false }

/-- Model of `shutdown(reason)`: a logged no-op if some bot never got a websocket
or the shared scope is already aborted; otherwise closes every socket and
aborts the shared scope. -/
def shutdown (s : PSState) : PSState :=
  if s.bots.any (fun b => b.ws.isNone) || s.aborted then s
  else { s with aborted := true }

/-- The parsed JSON body of the login HTTP exchange, exposing the fields
the code reads: `actionsuccess`, `curuser.loggedin`, `assertion`. -/
structure LoginResponse where
  actionsuccess : Bool
  loggedin : Bool
  assertion : String
  deriving DecidableEq, Repr

/-- The login acceptance check inside `connect()`:
`!res.actionsuccess || !res.curuser.loggedin || res.assertion.startsWith(";;")`
throws `Error("Could not login <name>: <assertion>")`. -/
def loginCheck (name : String) (r : LoginResponse) : Except String Unit :=
  if !r.actionsuccess || !r.loggedin || jsStartsWith r.assertion ";;" then
    .error ("Could not login " ++ name ++ ": " ++ r.assertion)
  else .ok ()

/-- The per-bot tail of `connect()` once the login response of that bot is in:
on a failed check the `.catch` runs `shutdown()` and rethrows the error;
on success the bot sends its `/trn` command and goes idle (state
unchanged in this model). -/
def connectBotStep (s : PSState) (name : String) (r : LoginResponse) :
    PSState × Except String Unit :=
  match loginCheck name r with
  | .error e => (shutdown s, .error e)
  | .ok _ => (s, .ok ())

/-- Model of `Promise.all` over the per-bot connect flows, determinised in bot
order: the first failing login response settles `connect()` with its
error (running `shutdown` on the way); if every check passes, `connect()`
resolves with `"=== ALL CONNECTED ==="`. -/
def connectAll (s : PSState) : List (String × LoginResponse) → PSState × Except String String
  | [] => (s, .ok "=== ALL CONNECTED ===")
  | (n, r) :: rest =>
    match connectBotStep s n r with
    | (s1, .error e) => (s1, .error e)
    | (s1, .ok _) => connectAll s1 rest

/-- The whole of `connect()` after the websocket-creation loop (every bot
already holds a `ws` handle): awaits the login exchanges in bot order. -/
def connectRun (s : PSState) (rs : List LoginResponse) : PSState × Except String String :=
  connectAll s (s.bots.map (fun b => b.name) |>.zip rs)

/-! ## `getEntry` -/

/-- The alphabet the entry-path loop draws from. -/
def entryChars : String := "abcdefghijklmnopqrstuvwxyz0123456789_"

/-- Model of JS `chars[i]` as appended by `r1 += chars[i]`: the one-character
string at index `i`, or the string `"undefined"` when `i` is out of range
(string-concatenating the `undefined` value). -/
def jsCharIndex (s : String) (i : Nat) : String :=
  match s.data.get? i with
  | some c => ⟨[c]⟩
  | none => "undefined"

/-- Model of the `while (r1.length < 8) r1 += chars[i]` loop.  `idx k` is
`Math.floor(Math.random() * chars.length)` at the `k`-th of the
iteration.  The fuel only bounds the iteration count: every iteration
appends at least one character, so 8 iterations always reach length 8. -/
def r1Loop (idx : Nat → Nat) : Nat → Nat → String → String
  | 0, _, r1 => r1
  | fuel + 1, k, r1 =>
    if r1.length < 8 then r1Loop idx fuel (k + 1) (r1 ++ jsCharIndex entryChars (idx k))
    else r1

/-- Model of `getEntry()`, with its two random draws made explicit: `idx k` is the
`k`-th `Math.floor(Math.random() * chars.length)` and `r2raw` is
`Math.floor(Math.random() * 900)` (so the `r2` of the endpoint is
`r2raw + 100`). -/
def getEntry (idx : Nat → Nat) (r2raw : Nat) : String :=
  let r1 := r1Loop idx 8 0 ""
  let r2 := r2raw + 100
  "wss://sim3.psim.us/showdown/" ++ r1 ++ "/" ++ toString r2 ++ "/websocket"

/-! ## The JS regular expressions used by the replay future

`new RegExp(`+"`"+`^|popup||html|<p>Your replay has been uploaded!.+?${room}`+"`"+`)`
is, under JS regex syntax, an *alternation* of five branches (the pipes
are metacharacters, not literal characters): `^`, `popup`, the empty
pattern, `html`, and `<p>Your replay has been uploaded!.+?<room>`.
We embed exactly the constructs this pattern uses: the `^` anchor,
literal characters, and `.+?` (one or more non-newline characters; for
`test` laziness is irrelevant). -/

/-- Atoms of one regex alternative. -/
inductive RAtom where
  | caret
  | lit (c : Char)
  | dotPlus
  deriving DecidableEq, Repr

/-- A run of literal atoms spelling out a string. -/
def litAtoms (s : String) : List RAtom := s.data.map .lit

/-- Does one alternative match a prefix of `l`?  `atStart` records
whether the current position is the start of the subject (for `^`).
The fuel only bounds the recursion: every step drops an atom or a
character, so `atoms + chars + 1` steps suffice. -/
def altMatch : Nat → List RAtom → Bool → List Char → Bool
  | 0, _, _, _ => false
  | _ + 1, [], _, _ => true
  | fuel + 1, .caret :: rest, atStart, l => atStart && altMatch fuel rest atStart l
  | _ + 1, .lit _ :: _, _, [] => false
  | fuel + 1, .lit c :: rest, _, x :: xs => x = c && altMatch fuel rest false xs
  | _ + 1, .dotPlus :: _, _, [] => false
  | fuel + 1, .dotPlus :: rest, _, x :: xs =>
    x ≠ '\n' && (altMatch fuel rest false xs || altMatch fuel (.dotPlus :: rest) false xs)

/-- Model of `re.test(s)` for an alternation of `alts`: some alternative matches
starting at some position of `s`. -/
def reTest (alts : List (List RAtom)) (s : String) : Bool :=
  let fuel := s.data.length + (alts.map List.length).sum + 1
  (List.range (s.data.length + 1)).any (fun i =>
    alts.any (fun a => altMatch fuel a (i == 0) (s.data.drop i)))

/-- The five alternatives of the replay-confirmation pattern
`^|popup||html|<p>Your replay has been uploaded!.+?<roomId>` (note the
third alternative is the *empty* pattern, produced by the unescaped
`||`). -/
def popupAlts (roomId : String) : List (List RAtom) :=
  [[.caret],
   litAtoms "popup",
   [],
   litAtoms "html",
   litAtoms "<p>Your replay has been uploaded!" ++ [.dotPlus] ++ litAtoms roomId]

/-- The predicate of the `AwaitResultLink` correlator: strip the frame
and run the `test` of the pattern on the result. -/
def popupPred (roomId : String) (msgraw : String) : Bool :=
  reTest (popupAlts roomId) (sliceFrame msgraw)

/-- Collect the lazy group characters of the href pattern until the
closing quote; at least one character is required and a newline kills the
match at this position. -/
def hrefGrab : List Char → List Char → Option (List Char)
  | _, [] => none
  | acc, c :: cs =>
    if c = '"' then (if acc.isEmpty then none else some acc.reverse)
    else if c = '\n' then none
    else hrefGrab (c :: acc) cs

/-- Matching `/href="(.+?)"/` at one position: if `l` begins with
`href="`, lazily grab one or more non-`"`, non-newline characters up to
the next `"`. -/
def hrefAt (l : List Char) : Option (List Char) :=
  if isPrefixOfL "href=\"".data l then hrefGrab [] (l.drop 6) else none

/-- Model of the group extraction of the leftmost `href` match: the group of the leftmost match. -/
def hrefFind : List Char → Option (List Char)
  | [] => none
  | c :: cs =>
    match hrefAt (c :: cs) with
    | some g => some g
    | none => hrefFind cs

/-- The replay link extracted from the matched raw frame. -/
def extractHref (s : String) : Option String :=
  (hrefFind s.data).map (fun l => ⟨l⟩)

/-! ## The battle choreography

`battle(battle)` validates its argument, sends a `userdetails` lookup for
every candidate username on connection A, and then chains `awaitws`
calls; each phase is modelled by the list of inbound messages delivered
while the correlator of that phase is live. -/

/-- The input spec as a JS object: `none` fields model absent values or
values of the wrong type (`typeof … !== "string"` /
`!Array.isArray(…)`). -/
structure JSSide where
  team : Option String
  usernames : Option (List String)
  confirmed : Option String
  deriving DecidableEq, Repr

/-- The `battle` argument: a `message`, a `chalcode` and two sides. -/
structure JSBattle where
  message : Option String
  chalcode : Option String
  side1 : Option JSSide
  side2 : Option JSSide
  deriving DecidableEq, Repr

/-- Contribution of one side to the `battle()` input type check: the side
must be an object, its `team` a string, its `usernames` an array, and its
`confirmed` falsy. -/
def sideBad : Option JSSide → Bool
  | none => true
  | some s => s.team.isNone || s.usernames.isNone || truthyStr s.confirmed

/-- The full input type check of `battle()`: `message` and `chalcode`
must be strings and both sides must pass `sideBad`.  On `true`, `battle()`
throws `Error("Invalid data in argument.")` before sending anything. -/
def battleBad (b : JSBattle) : Bool :=
  b.message.isNone || b.chalcode.isNone || sideBad b.side1 || sideBad b.side2

/-- Default used only on the (unreachable) invalid path of field access. -/
def defSide : JSSide := ⟨none, none, none⟩

/-- Field access `battle.side1` after validation. -/
def side1of (b : JSBattle) : JSSide := b.side1.getD defSide

/-- Field access `battle.side2` after validation. -/
def side2of (b : JSBattle) : JSSide := b.side2.getD defSide

/-- The parsed `userdetails` payload fields the predicate reads:
`details.name` and the truthiness of `details.rooms`. -/
structure UDetails where
  name : String
  rooms : Bool
  deriving DecidableEq, Repr

/-- One inbound frame on connection A during the player-confirmation
phase, after the codec: `ud raw d` is a frame whose bar-split fields are
`queryresponse`/`userdetails` and whose JSON payload parses to `d`
(`none` models `null`); `other raw` is any frame failing that check. -/
inductive Q0Msg where
  | ud (raw : String) (d : Option UDetails)
  | other (raw : String)
  deriving DecidableEq, Repr

/-- The mutable per-battle confirmation state: the candidate
usernames and its `confirmed` field. -/
structure Sides where
  u1 : List String
  u2 : List String
  c1 : Option String
  c2 : Option String
  deriving DecidableEq, Repr

/-- Model of JS `usernames.find((x) => x === name)`. -/
def jsFind (l : List String) (n : String) : Option String :=
  l.find? (fun x => x == n)

/-- Outcome of one predicate evaluation in the confirmation phase. -/
inductive P1Out where
  | cont
  | matched
  | reject (reason : String)
  deriving DecidableEq, Repr

/-- The body of the player-confirmation predicate on one parsed
`userdetails` payload: a `null` payload rejects; a payload naming a
(truthy) candidate of side 1, else of side 2, is bound — offline
candidates reject, online ones overwrite the `confirmed` field of that side; the
predicate matches once both sides are confirmed. -/
def p1Apply (b : Sides) (d : Option UDetails) : Sides × P1Out :=
  match d with
  | none => (b, .reject "Unregistered username in queue.")
  | some d =>
    let f1 := jsFind b.u1 d.name
    if truthyStr f1 then
      if !d.rooms then (b, .reject ("User is offline: " ++ d.name))
      else
        let b1 := { b with c1 := f1 }
        if !truthyStr b1.c1 || !truthyStr b1.c2 then (b1, .cont) else (b1, .matched)
    else
      let f2 := jsFind b.u2 d.name
      if truthyStr f2 then
        if !d.rooms then (b, .reject ("User is offline: " ++ d.name))
        else
          let b1 := { b with c2 := f2 }
          if !truthyStr b1.c1 || !truthyStr b1.c2 then (b1, .cont) else (b1, .matched)
      else (b, .cont)

/-- Result of the player-confirmation `awaitws`: matched with the final
confirmation state, rejected by the predicate at some frame, or timed out
with the stream exhausted. -/
inductive P1Res where
  | matched (b : Sides)
  | rejected (reason : String) (raw : String) (b : Sides)
  | timeout (b : Sides)
  deriving DecidableEq, Repr

/-- Run the player-confirmation correlator over the frames delivered
while it is live. -/
def p1Run (b : Sides) : List Q0Msg → P1Res
  | [] => .timeout b
  | .other _ :: ms => p1Run b ms
  | .ud raw d :: ms =>
    match p1Apply b d with
    | (b1, .cont) => p1Run b1 ms
    | (b1, .matched) => .matched b1
    | (b1, .reject r) => .rejected r raw b1

/-- The confirmation state `battle()` starts phase 1 from. -/
def sidesOf (b : JSBattle) : Sides :=
  { u1 := (side1of b).usernames.getD []
    u2 := (side2of b).usernames.getD []
    c1 := (side1of b).confirmed
    c2 := (side2of b).confirmed }

/-- The `|/cmd userdetails <user>` commands sent on connection A before
phase 1, one per side-1 candidate then one per side-2 candidate. -/
def udCmds (b : JSBattle) : List String :=
  (((side1of b).usernames.getD []) ++ ((side2of b).usernames.getD [])).map
    (fun u => msgToRaw ("|/cmd userdetails " ++ u))

/-- The challenge-notice predicate run on connection B: a `pm` from bot A
to bot B whose payload starts with `/challenge `. -/
def p2Pred (n0 n1 : String) (msgraw : String) : Bool :=
  let data := jsSplit (sliceFrame msgraw) "|"
  fieldD data 1 == "pm" && sliceOne (fieldD data 2) == n0 &&
    sliceOne (fieldD data 3) == n1 && jsStartsWith (fieldD data 4) "/challenge "

/-- The session-init predicate run on connection A: the first of the
`\n`-separated segment is the room line and the second must be
`|init|battle`. -/
def p3Pred (msgraw : String) : Bool :=
  let parts := jsSplit (sliceFrame msgraw) "\\n"
  let seg := fieldD parts 1
  if seg == "" then false
  else
    let data := jsSplit seg "|"
    fieldD data 1 == "init" && fieldD data 2 == "battle"

/-- The room line (`>battle-…`) of a session-init frame. -/
def roomOf (msgraw : String) : String :=
  fieldD (jsSplit (sliceFrame msgraw) "\\n") 0

/-- The terminal-outcome predicate run on connection A: the last
`\n`-separated segment has `win` as its second bar-field. -/
def p4Pred (msgraw : String) : Bool :=
  fieldD (jsSplit ((jsSplit (sliceFrame msgraw) "\\n").getLastD "") "|") 1 == "win"

/-- Lift a boolean predicate (one that returns `true` or falls through
with `undefined`) to the `awaitws` predicate type. -/
def boolPredJS (p : String → Bool) : String → JSVal :=
  fun m => if p m then .jbool true else .jundefined

/-- One stateless `awaitws` call over the messages delivered while it is
live: the first frame on which the predicate returns `true` resolves, a
string return rejects, and stream exhaustion is the timeout. -/
def wsRun (p : String → JSVal) : List String → Except RunErr String
  | [] => .error .timedOut
  | m :: ms =>
    match p m with
    | .jbool true => .ok m
    | .jstr r => .error (.predReject r m)
    | _ => wsRun p ms

/-- Interpolation in JS of a possibly-undefined value. -/
def jsInterp : Option String → String
  | some s => s
  | none => "undefined"

/-- What `battle()` hands back on the success path: the battle-room URL
(resolved immediately) and the replay-link future. -/
structure BattleRet where
  room : String
  replay : Except RunErr String
  deriving Repr

/-- The observable outcome of one choreography run: every command sent on
connection A (`sends0`) and connection B (`sends1`), in send order, and
the settlement of `battle()` (with the settlement of the replay future inside
`BattleRet`). -/
structure RunOut where
  sends0 : List String
  sends1 : List String
  result : Except RunErr BattleRet
  deriving Repr

/-- The backgrounded replay future of one started battle: await the
terminal-outcome broadcast (`s4`), send `/savereplay`, await the
replay-confirmation notice (`s5`), send the final room-leave command, and
settle with the extracted link (or the fallback string when the matched
frame carries no `href="…"` occurrence). -/
def replayFut (rid : String) (s4 s5 : List String) : Except RunErr String :=
  match wsRun (boolPredJS p4Pred) s4 with
  | .error e => .error e
  | .ok _ =>
    match wsRun (boolPredJS (popupPred rid)) s5 with
    | .error e => .error e
    | .ok m5 => .ok ((extractHref m5).getD "this should not have happened")

/-- The commands the replay future sends on connection A, in order. -/
def replaySends (rid : String) (s4 s5 : List String) : List String :=
  match wsRun (boolPredJS p4Pred) s4 with
  | .error _ => []
  | .ok _ =>
    match wsRun (boolPredJS (popupPred rid)) s5 with
    | .error _ => [msgToRaw (rid ++ "|/savereplay")]
    | .ok _ => [msgToRaw (rid ++ "|/savereplay"), msgToRaw ("|/noreply /leave " ++ rid)]

/-- The whole `battle()` choreography of the evolved PSBots variant.
`n0`/`n1` are `bots[0].name`/`bots[1].name`; `q0` is the connection-A
stream during player confirmation, `s2` the connection-B stream during
the challenge wait, `s3`/`s4`/`s5` the connection-A streams during the
session-init, terminal-outcome and replay-confirmation waits. -/
def battleRun (n0 n1 : String) (b : JSBattle)
    (q0 : List Q0Msg) (s2 s3 s4 s5 : List String) : RunOut :=
  if battleBad b then ⟨[], [], .error .invalidArg⟩
  else
    let uds := udCmds b
    match p1Run (sidesOf b) q0 with
    | .rejected r raw _ => ⟨uds, [], .error (.predReject r raw)⟩
    | .timeout _ => ⟨uds, [], .error .timedOut⟩
    | .matched sd =>
      let utm0 := msgToRaw ("|/utm " ++ (side1of b).team.getD "")
      let utm1 := msgToRaw ("|/utm " ++ (side2of b).team.getD "")
      let chal := msgToRaw ("|/challenge " ++ n1 ++ ", " ++ b.chalcode.getD "")
      match wsRun (boolPredJS (p2Pred n0 n1)) s2 with
      | .error e => ⟨uds ++ [utm0, chal], [utm1], .error e⟩
      | .ok _ =>
        let acc := msgToRaw ("|/accept " ++ n0)
        match wsRun (boolPredJS p3Pred) s3 with
        | .error e => ⟨uds ++ [utm0, chal], [utm1, acc], .error e⟩
        | .ok m3 =>
          let rid := sliceOne (roomOf m3)
          let mMsg := msgToRaw (rid ++ "|" ++ b.message.getD "")
          let mTimer := msgToRaw (rid ++ "|/timer on")
          let mLeaveB := msgToRaw (rid ++ "|/leavebattle")
          let mAdd1 := msgToRaw (rid ++ "|/addplayer " ++ jsInterp sd.c1 ++ ", p1")
          let mAdd2 := msgToRaw (rid ++ "|/addplayer " ++ jsInterp sd.c2 ++ ", p2")
          let mLeave := msgToRaw ("|/noreply /leave " ++ rid)
          let url := "https://play.pokemonshowdown.com/" ++ rid
          let f0 := uds ++ [utm0, chal, mMsg, mTimer, mLeaveB, mAdd1]
          let f1 := [utm1, acc, mTimer, mLeaveB, mAdd2, mLeave]
          ⟨f0 ++ replaySends rid s4 s5, f1, .ok ⟨url, replayFut rid s4 s5⟩⟩

/-- The confirmation state carried by a phase-1 result. -/
def p1State : P1Res → Sides
  | .matched b => b
  | .rejected _ _ b => b
  | .timeout b => b

/-! ## Concrete fixtures used by witnesses and counterexamples -/

/-- A well-formed battle spec with one candidate per side. -/
def exSpec : JSBattle :=
  ⟨some "hello", some "gen9x",
   some ⟨some "T1", some ["alice"], none⟩,
   some ⟨some "T2", some ["carol"], none⟩⟩

/-- Phase-1 frames reporting both candidates of `exSpec` online. -/
def exQ0 : List Q0Msg :=
  [.ud "r1" (some ⟨"alice", true⟩), .ud "r2" (some ⟨"carol", true⟩)]

/-- A challenge-notice frame from botA to botB. -/
def exPm : String := "a[\"|pm| botA| botB|/challenge hi\"]"

/-- A session-init frame for room `battle-x-1`. -/
def exInit : String := "a[\">battle-x-1\\n|init|battle\\n|title|t\"]"

/-- A terminal-outcome frame. -/
def exWin : String := "a[\"|win|alice\"]"

/-- An unrelated join frame, not a replay-confirmation notice and with no
href anchor in it. -/
def exJunk : String := "a[\"|j| someone\"]"

/-- A well-formed spec except that both username arrays are empty. -/
def exSpecEmptyU : JSBattle :=
  ⟨some "hello", some "gen9x",
   some ⟨some "T1", some [], none⟩,
   some ⟨some "T2", some [], none⟩⟩

/-- A spec with every field missing. -/
def exSpecBad : JSBattle := ⟨none, none, none, none⟩

/-- A predicate that matches every frame. -/
def exPredTrue : String → JSVal := fun _ => .jbool true

/-- A settled and deregistered correlator state. -/
def exSettled : AwaitState := ⟨some (.ok "m"), false⟩

/-- A two-bot engine state right after the websocket-creation loop. -/
def exPS : PSState :=
  ⟨[⟨"botA", "pw", some ()⟩, ⟨"botB", "pw2", some ()⟩], false⟩

/-- A login response rejected by the server (`actionsuccess: false`). -/
def exLoginFail : LoginResponse := ⟨false, true, "tok"⟩

/-- A login response accepted by the server. -/
def exLoginOk : LoginResponse := ⟨true, true, "tok"⟩

/-- A well-formed constructor argument with one entry. -/
def exAuth : AuthArg := some [some ⟨"botA", "pw", none⟩]

/-- A constant random-index source. -/
def exIdx0 : Nat → Nat := fun _ => 0

/-! ## Helper lemmas -/

theorem strData_append (s t : String) : (s ++ t).data = s.data ++ t.data := rfl

/-- A userdetails lookup command is never a challenge command: the two
raw frames differ at character index 5. -/
theorem udCmd_ne_chal (u x : String) :
    msgToRaw ("|/cmd userdetails " ++ u) ≠ msgToRaw ("|/challenge " ++ x) := by
  intro h
  have h5 : (msgToRaw ("|/cmd userdetails " ++ u)).data.get? 5 =
      (msgToRaw ("|/challenge " ++ x)).data.get? 5 := by rw [h]
  have e1 : (msgToRaw ("|/cmd userdetails " ++ u)).data.get? 5 = some 'm' := rfl
  have e2 : (msgToRaw ("|/challenge " ++ x)).data.get? 5 = some 'h' := rfl
  rw [e1, e2] at h5
  exact absurd h5 (by decide)

/-- A truthy find result is a member of the list searched. -/
theorem truthy_find_mem {l : List String} {n : String}
    (h : truthyStr (jsFind l n) = true) : ∃ u, jsFind l n = some u ∧ u ∈ l := by
  cases hf : jsFind l n with
  | none => rw [hf] at h; simp [truthyStr] at h
  | some u => exact ⟨u, rfl, List.mem_of_find?_eq_some hf⟩

/-- One predicate evaluation preserves the candidate lists and only ever
moves a `confirmed` field to a member of the matching candidate list. -/
theorem p1Apply_inv (b : Sides) (d : Option UDetails) :
    (p1Apply b d).1.u1 = b.u1 ∧ (p1Apply b d).1.u2 = b.u2 ∧
    ((p1Apply b d).1.c1 = b.c1 ∨ ∃ u, u ∈ b.u1 ∧ (p1Apply b d).1.c1 = some u) ∧
    ((p1Apply b d).1.c2 = b.c2 ∨ ∃ u, u ∈ b.u2 ∧ (p1Apply b d).1.c2 = some u) := by
  cases d with
  | none => simp [p1Apply]
  | some dd =>
    simp only [p1Apply]
    split_ifs with h1 h2 h3 h4 h5 h6
    · simp
    · obtain ⟨u, hu, hmem⟩ := truthy_find_mem h1
      refine ⟨rfl, rfl, Or.inr ⟨u, hmem, by simp [hu]⟩, Or.inl rfl⟩
    · obtain ⟨u, hu, hmem⟩ := truthy_find_mem h1
      refine ⟨rfl, rfl, Or.inr ⟨u, hmem, by simp [hu]⟩, Or.inl rfl⟩
    · simp
    · obtain ⟨u, hu, hmem⟩ := truthy_find_mem h4
      refine ⟨rfl, rfl, Or.inl rfl, Or.inr ⟨u, hmem, by simp [hu]⟩⟩
    · obtain ⟨u, hu, hmem⟩ := truthy_find_mem h4
      refine ⟨rfl, rfl, Or.inl rfl, Or.inr ⟨u, hmem, by simp [hu]⟩⟩
    · simp

/-- The run-level version of `p1Apply_inv`. -/
theorem p1Run_inv (ms : List Q0Msg) (b : Sides) :
    (p1State (p1Run b ms)).u1 = b.u1 ∧ (p1State (p1Run b ms)).u2 = b.u2 ∧
    ((p1State (p1Run b ms)).c1 = b.c1 ∨
      ∃ u, u ∈ b.u1 ∧ (p1State (p1Run b ms)).c1 = some u) ∧
    ((p1State (p1Run b ms)).c2 = b.c2 ∨
      ∃ u, u ∈ b.u2 ∧ (p1State (p1Run b ms)).c2 = some u) := by
  induction ms generalizing b with
  | nil => simp [p1Run, p1State]
  | cons m ms ih =>
    cases m with
    | other raw => simpa [p1Run] using ih b
    | ud raw d =>
      obtain ⟨hu1, hu2, hc1, hc2⟩ := p1Apply_inv b d
      cases hp : p1Apply b d with
      | mk b1 o =>
        rw [hp] at hu1 hu2 hc1 hc2
        cases o with
        | cont =>
          obtain ⟨iu1, iu2, ic1, ic2⟩ := ih b1
          simp only [p1Run, hp]
          refine ⟨iu1.trans hu1, iu2.trans hu2, ?_, ?_⟩
          · rcases ic1 with h | ⟨u, hu, he⟩
            · rw [h]; rcases hc1 with h2 | ⟨u, hm, he⟩
              · exact Or.inl h2
              · exact Or.inr ⟨u, hm, he⟩
            · exact Or.inr ⟨u, hu1 ▸ hu, he⟩
          · rcases ic2 with h | ⟨u, hu, he⟩
            · rw [h]; rcases hc2 with h2 | ⟨u, hm, he⟩
              · exact Or.inl h2
              · exact Or.inr ⟨u, hm, he⟩
            · exact Or.inr ⟨u, hu2 ▸ hu, he⟩
        | matched => simpa [p1Run, hp, p1State] using ⟨hu1, hu2, hc1, hc2⟩
        | reject r => simpa [p1Run, hp, p1State] using ⟨hu1, hu2, hc1, hc2⟩

/-- Frames delivered after the confirmation correlator has settled do not
change its result. -/
theorem p1Run_append (xs ys : List Q0Msg) (b : Sides) :
    p1Run b (xs ++ ys) = match p1Run b xs with
      | .matched b1 => .matched b1
      | .rejected r raw b1 => .rejected r raw b1
      | .timeout b1 => p1Run b1 ys := by
  induction xs generalizing b with
  | nil => simp [p1Run]
  | cons m ms ih =>
    cases m with
    | other raw => simpa [p1Run] using ih b
    | ud raw d =>
      cases hp : p1Apply b d with
      | mk b1 o => cases o <;> simp [p1Run, hp, ih b1]

/-- The stateless correlator never settles with the validation error. -/
theorem wsRun_no_invalid (p : String → JSVal) (ms : List String) (e : RunErr)
    (h : wsRun p ms = .error e) : e ≠ .invalidArg := by
  induction ms with
  | nil =>
    simp only [wsRun, Except.error.injEq] at h
    simp [← h]
  | cons m ms ih =>
    simp only [wsRun] at h
    cases hp : p m with
    | jbool b =>
      cases b with
      | true => rw [hp] at h; simp at h
      | false => rw [hp] at h; exact ih h
    | jstr r =>
      rw [hp] at h
      simp only [Except.error.injEq] at h
      simp [← h]
    | jnum n => rw [hp] at h; exact ih h
    | jundefined => rw [hp] at h; exact ih h

/-! ## Claims -/

/-- C1 (amended): during player confirmation, a `confirmed` field is only
ever set to a member of the candidate list of its own side — the final
value of each `confirmed` field is either its initial value or some
member of that list — and frames delivered after the correlator has
settled (matched or rejected) do not change the result.  However (see the
counterexample) the field is not write-once: a later online candidate of
the same side overwrites it, so the last candidate observed online before
the correlator settles is the one bound. -/
theorem claim_C1 (b : Sides) (ms ns : List Q0Msg) :
    ((p1State (p1Run b ms)).c1 = b.c1 ∨
      ∃ u, u ∈ b.u1 ∧ (p1State (p1Run b ms)).c1 = some u) ∧
    ((p1State (p1Run b ms)).c2 = b.c2 ∨
      ∃ u, u ∈ b.u2 ∧ (p1State (p1Run b ms)).c2 = some u) ∧
    (p1Run b (ms ++ ns) = match p1Run b ms with
      | .matched b1 => .matched b1
      | .rejected r raw b1 => .rejected r raw b1
      | .timeout b1 => p1Run b1 ns) :=
  ⟨(p1Run_inv ms b).2.2.1, (p1Run_inv ms b).2.2.2, p1Run_append ms ns b⟩

/-- C1 is false as stated: with candidates `alice` and `bob` on side 1,
an online report for `alice` binds `side1.confirmed := alice`, and a
later online report for `bob` — arriving while side 2 is still
unconfirmed, so the correlator is still live — overwrites it with `bob`.
The `confirmed` field is set twice and the first observed candidate does
not stay bound. -/
theorem claim_C1_counterexample :
    p1State (p1Run ⟨["alice", "bob"], ["carol"], none, none⟩
        [.ud "r1" (some ⟨"alice", true⟩)]) =
      ⟨["alice", "bob"], ["carol"], some "alice", none⟩ ∧
    p1State (p1Run ⟨["alice", "bob"], ["carol"], none, none⟩
        [.ud "r1" (some ⟨"alice", true⟩), .ud "r2" (some ⟨"bob", true⟩)]) =
      ⟨["alice", "bob"], ["carol"], some "bob", none⟩ ∧
    ("alice" : String) ≠ "bob" :=
  ⟨rfl, rfl, by decide⟩

/-- C5: for a message delivered while an `awaitws` call is pending and
its listener attached, a predicate returning the matched signal `true`
resolves the call with that raw message and deregisters; a string return
rejects the call with that string as the diagnostic reason (paired with
the raw message) and deregisters; any other return value leaves the state
— and hence the eventual outcome of the call — untouched. -/
theorem claim_C5 (p : String → JSVal) (st : AwaitState) (m : String)
    (hpend : st.result = none) (hact : st.listener = true) :
    (p m = .jbool true → awStep p st (.msg m) = ⟨some (.ok m), false⟩) ∧
    (∀ r, p m = .jstr r →
      awStep p st (.msg m) = ⟨some (.error (.predReject r m)), false⟩) ∧
    (p m ≠ .jbool true → (∀ r, p m ≠ .jstr r) → awStep p st (.msg m) = st) := by
  obtain ⟨res, lis⟩ := st
  simp only at hpend hact
  subst hpend hact
  refine ⟨?_, ?_, ?_⟩
  · intro h; simp [awStep, h, settleOk, abortCtrl]
  · intro r h; simp [awStep, h, settleErr, abortCtrl]
  · intro h1 h2
    cases hp : p m with
    | jbool bb =>
      cases bb with
      | true => exact absurd hp h1
      | false => simp [awStep, hp]
    | jstr r => exact absurd hp (h2 r)
    | jnum n => simp [awStep, hp]
    | jundefined => simp [awStep, hp]

/-- Witness for C5 at a concrete predicate, state and message. -/
theorem claim_C5_witness :
    awStep exPredTrue awInit (.msg "x") = ⟨some (.ok "x"), false⟩ :=
  (claim_C5 exPredTrue awInit "x" rfl rfl).1 rfl

/-- C6: an `awaitws` call settles exactly once.  From a settled and
deregistered state every further message or timer event is a strict
no-op; deregistration is idempotent; a settled result is never replaced
by any event; and any step that settles a pending call also deregisters
the listener in the same step. -/
theorem claim_C6 (p : String → JSVal) (st : AwaitState) (r : Except RunErr String)
    (evs : List AwEvent) (hs : st.result = some r) (hl : st.listener = false) :
    awRun p st evs = st ∧
    abortCtrl (abortCtrl st) = abortCtrl st ∧
    (∀ st1 e r1, st1.result = some r1 → (awStep p st1 e).result = some r1) ∧
    (∀ st1 e, st1.result = none → ((awStep p st1 e).result).isSome = true →
      (awStep p st1 e).listener = false) := by
  have hid : ∀ e, awStep p st e = st := by
    intro e
    cases e with
    | msg m => simp [awStep, hl]
    | timer =>
      obtain ⟨res, lis⟩ := st
      simp only at hs hl
      subst hs hl
      simp [awStep, settleErr, abortCtrl]
  refine ⟨?_, rfl, ?_, ?_⟩
  · induction evs with
    | nil => rfl
    | cons e es ih => rw [awRun, hid e]; exact ih
  · intro st1 e r1 h1
    cases e with
    | msg m =>
      by_cases hl1 : st1.listener
      · simp only [awStep, hl1, if_true]
        cases hp : p m with
        | jbool bb =>
          cases bb with
          | true => simp [settleOk, abortCtrl, h1]
          | false => exact h1
        | jstr rr => simp [settleErr, abortCtrl, h1]
        | jnum n => exact h1
        | jundefined => exact h1
      · simp [awStep, hl1, h1]
    | timer => simp [awStep, settleErr, abortCtrl, h1]
  · intro st1 e h1 h2
    cases e with
    | msg m =>
      by_cases hl1 : st1.listener
      · simp only [awStep, hl1, if_true] at h2 ⊢
        cases hp : p m with
        | jbool bb =>
          cases bb with
          | true => simp [abortCtrl]
          | false => rw [hp] at h2; rw [h1] at h2; simp at h2
        | jstr rr => simp [abortCtrl]
        | jnum n => rw [hp] at h2; rw [h1] at h2; simp at h2
        | jundefined => rw [hp] at h2; rw [h1] at h2; simp at h2
      · simp [awStep, hl1, h1] at h2
    | timer => simp [awStep, abortCtrl]

/-- Witness for C6: a settled, deregistered call is inert under a further
message and a late timer firing. -/
theorem claim_C6_witness :
    awRun exPredTrue exSettled [.msg "y", .timer] = exSettled :=
  (claim_C6 exPredTrue exSettled (.ok "m") [.msg "y", .timer] rfl rfl).1

/-- C9: the `PSBots` constructor throws `"Invalid authentication data."`
exactly when its argument is not an array, or some entry is falsy, lacks
a truthy `name`, lacks a truthy `pass`, or already carries a `ws`
connection handle; on success every stored bot entry has no connection
handle and the shared controller starts unaborted. -/
theorem claim_C9 (auth : AuthArg) :
    (psNew auth = .error "Invalid authentication data." ↔
      auth = none ∨ ∃ l, auth = some l ∧ ∃ x ∈ l,
        x = none ∨ ∃ e, x = some e ∧
          (e.name = "" ∨ e.pass = "" ∨ e.ws.isSome = true)) ∧
    (∀ s, psNew auth = .ok s → s.aborted = false ∧ ∀ bt ∈ s.bots, bt.ws = none) := by
  have hchar : authBad auth = true ↔
      auth = none ∨ ∃ l, auth = some l ∧ ∃ x ∈ l,
        x = none ∨ ∃ e, x = some e ∧
          (e.name = "" ∨ e.pass = "" ∨ e.ws.isSome = true) := by
    cases auth with
    | none => simp [authBad]
    | some l =>
      simp only [authBad, List.any_eq_true, Option.some.injEq, reduceCtorEq,
        false_or]
      constructor
      · rintro ⟨x, hx, hfx⟩
        refine ⟨l, rfl, x, hx, ?_⟩
        cases x with
        | none => exact Or.inl rfl
        | some e =>
          refine Or.inr ⟨e, rfl, ?_⟩
          simp only [truthyStr, Bool.or_eq_true, Bool.not_eq_true',
            decide_eq_false_iff_not, not_not] at hfx
          rcases hfx with (h | h) | h
          · exact Or.inl h
          · exact Or.inr (Or.inl h)
          · exact Or.inr (Or.inr h)
      · rintro ⟨l2, hl2, x, hx, hcase⟩
        obtain rfl : l2 = l := by injection hl2.symm
        refine ⟨x, hx, ?_⟩
        rcases hcase with rfl | ⟨e, rfl, h⟩
        · rfl
        · simp only [truthyStr, Bool.or_eq_true, Bool.not_eq_true',
            decide_eq_false_iff_not, not_not]
          rcases h with h | h | h
          · exact Or.inl (Or.inl h)
          · exact Or.inl (Or.inr h)
          · exact Or.inr h
  constructor
  · rw [← hchar]
    by_cases h : authBad auth
    · simp [psNew, h]
    · simp [psNew, h]
  · intro s hs
    by_cases h : authBad auth
    · simp [psNew, h] at hs
    · simp only [psNew, h, Bool.false_eq_true, if_false, Except.ok.injEq] at hs
      subst hs
      refine ⟨rfl, ?_⟩
      intro bt hbt
      cases auth with
      | none => exact absurd rfl h
      | some l =>
        simp only [Option.getD_some] at hbt
        obtain ⟨x, hx, hfx⟩ := List.mem_map.1 hbt
        have hfalse : (l.any fun x =>
            match x with
            | none => true
            | some e => !truthyStr (some e.name) || !truthyStr (some e.pass) ||
                e.ws.isSome) = false := by
          cases hh : authBad (some l) with
          | false => simpa [authBad] using hh
          | true => exact absurd hh h
        rw [List.any_eq_false] at hfalse
        have hx2 := hfalse x hx
        cases x with
        | none => simp at hx2
        | some e =>
          simp only [Bool.or_eq_true, not_or] at hx2
          have hws : ¬ e.ws.isSome = true := hx2.2
          have hnone : e.ws = none := by
            cases hw : e.ws with
            | none => rfl
            | some u => rw [hw] at hws; simp at hws
          rw [← hfx]
          exact hnone

/-- Witness for C9: a well-formed one-entry argument constructs a state
with no connection handle bound and the shared scope unaborted. -/
theorem claim_C9_witness :
    (⟨[⟨"botA", "pw", none⟩], false⟩ : PSState).aborted = false ∧
    ∀ bt ∈ (⟨[⟨"botA", "pw", none⟩], false⟩ : PSState).bots, bt.ws = none :=
  (claim_C9 exAuth).2 ⟨[⟨"botA", "pw", none⟩], false⟩ rfl

/-- C10: every endpoint URL `getEntry()` produces has exactly the shape
`wss://sim3.psim.us/showdown/<r1>/<r2>/websocket` with `r1` an
8-character string over lowercase letters, digits and underscore, and
`r2` an integer between 100 and 999. -/
theorem claim_C10 (idx : Nat → Nat) (r2raw : Nat)
    (hidx : ∀ n, idx n < 37) (hr2 : r2raw < 900) :
    ∃ r1, getEntry idx r2raw =
        "wss://sim3.psim.us/showdown/" ++ r1 ++ "/" ++
          toString (r2raw + 100) ++ "/websocket" ∧
      r1.length = 8 ∧ (∀ c ∈ r1.data, c ∈ entryChars.data) ∧
      100 ≤ r2raw + 100 ∧ r2raw + 100 ≤ 999 := by
  have hchars : entryChars.data.length = 37 := rfl
  have hloop : ∀ fuel k r1, r1.length + fuel = 8 →
      (∀ c ∈ r1.data, c ∈ entryChars.data) →
      (r1Loop idx fuel k r1).length = 8 ∧
        ∀ c ∈ (r1Loop idx fuel k r1).data, c ∈ entryChars.data := by
    intro fuel
    induction fuel with
    | zero =>
      intro k r1 h hm
      exact ⟨by simpa [r1Loop] using h, by simpa [r1Loop] using hm⟩
    | succ n ih =>
      intro k r1 h hm
      have hlt : r1.length < 8 := by omega
      simp only [r1Loop, hlt, if_true]
      have hik : idx k < entryChars.data.length := by rw [hchars]; exact hidx k
      have hc := List.get?_eq_get hik
      have hji : jsCharIndex entryChars (idx k) = ⟨[entryChars.data.get ⟨idx k, hik⟩]⟩ := by
        unfold jsCharIndex
        rw [hc]
      rw [hji]
      apply ih (k + 1)
      · have : (r1 ++ (⟨[entryChars.data.get ⟨idx k, hik⟩]⟩ : String)).length
            = r1.length + 1 := List.length_append r1.data _
        omega
      · intro c2 hc2
        rw [strData_append] at hc2
        rcases List.mem_append.1 hc2 with hmem | hmem
        · exact hm c2 hmem
        · have : c2 = entryChars.data.get ⟨idx k, hik⟩ := by simpa using hmem
          rw [this]
          exact List.get_mem _ _ _
  obtain ⟨h8, hmem⟩ := hloop 8 0 "" (by simp) (by simp)
  exact ⟨r1Loop idx 8 0 "", rfl, h8, hmem, by omega, by omega⟩

/-- Witness for C10 with a constant random source. -/
theorem claim_C10_witness :
    ∃ r1, getEntry exIdx0 0 =
        "wss://sim3.psim.us/showdown/" ++ r1 ++ "/" ++
          toString (0 + 100) ++ "/websocket" ∧
      r1.length = 8 ∧ (∀ c ∈ r1.data, c ∈ entryChars.data) ∧
      100 ≤ 0 + 100 ∧ 0 + 100 ≤ 999 :=
  claim_C10 exIdx0 0 (by intro n; norm_num [exIdx0]) (by norm_num)

/-- A login-check error always carries the login failure message. -/
theorem loginCheck_error_shape (nm : String) (r : LoginResponse) (e : String)
    (h : loginCheck nm r = .error e) :
    e = "Could not login " ++ nm ++ ": " ++ r.assertion := by
  unfold loginCheck at h
  split_ifs at h
  injection h with h1
  exact h1.symm

/-- If some awaited login check fails, the determinised `Promise.all`
fold settles with the login failure message of some bot and runs
`shutdown` on the engine state. -/
theorem connectAll_fails (pairs : List (String × LoginResponse)) (s : PSState)
    (h : ∃ p ∈ pairs, ∃ e, loginCheck p.1 p.2 = .error e) :
    ∃ nm r, (nm, r) ∈ pairs ∧
      connectAll s pairs =
        (shutdown s, .error ("Could not login " ++ nm ++ ": " ++ r.assertion)) := by
  induction pairs generalizing s with
  | nil => simp at h
  | cons hd tl ih =>
    obtain ⟨nm0, r0⟩ := hd
    cases hc : loginCheck nm0 r0 with
    | error e =>
      have he := loginCheck_error_shape nm0 r0 e hc
      refine ⟨nm0, r0, List.mem_cons_self _ _, ?_⟩
      simp [connectAll, connectBotStep, hc, he]
    | ok u =>
      obtain ⟨p, hp, e, hpe⟩ := h
      rcases List.mem_cons.1 hp with rfl | hmem
      · rw [hc] at hpe; exact absurd hpe (by simp)
      · obtain ⟨nm, r, hmem2, heq⟩ := ih s ⟨p, hmem, e, hpe⟩
        exact ⟨nm, r, List.mem_cons_of_mem _ hmem2,
          by simp [connectAll, connectBotStep, hc, heq]⟩

/-- When every bot holds a websocket handle, `shutdown` leaves the shared
scope aborted. -/
theorem shutdown_aborted (s : PSState)
    (hws : ∀ b ∈ s.bots, b.ws.isSome = true) : (shutdown s).aborted = true := by
  unfold shutdown
  have hnone : (s.bots.any fun b => b.ws.isNone) = false := by
    rw [List.any_eq_false]
    intro b hb
    have := hws b hb
    cases hw : b.ws with
    | none => rw [hw] at this; simp at this
    | some u => simp
  rw [hnone]
  simp only [Bool.false_or]
  split_ifs with h2
  · exact h2
  · rfl

/-- Indexing both lists at the same position produces a member of the
zip. -/
theorem zip_mem_of_get {α β : Type} (a : List α) (b : List β) (i : Nat)
    (x : α) (y : β) (ha : a.get? i = some x) (hb : b.get? i = some y) :
    (x, y) ∈ a.zip b := by
  induction a generalizing b i with
  | nil => simp at ha
  | cons a0 as ih =>
    cases b with
    | nil => simp at hb
    | cons b0 bs =>
      cases i with
      | zero =>
        simp only [List.get?_cons_zero, Option.some.injEq] at ha hb
        subst ha hb
        exact List.mem_cons_self _ _
      | succ n =>
        simp only [List.get?_cons_succ] at ha hb
        exact List.mem_cons_of_mem _ (ih bs n ha hb)

/-- C3: a login response with a falsy `actionsuccess`, a falsy
`curuser.loggedin`, or an assertion starting with the guest sentinel
`;;`, makes `connect()` reject with the authentication failure message
and leaves the shared cancellation scope aborted; after the shutdown a
sibling connection receives no further frames, so each of its pending
`awaitws` calls settles as a rejection when its timer fires. -/
theorem claim_C3 (s : PSState) (rs : List LoginResponse) (i : Nat)
    (bt : BotEntry) (r : LoginResponse)
    (hws : ∀ b ∈ s.bots, b.ws.isSome = true)
    (hb : s.bots.get? i = some bt)
    (hr : rs.get? i = some r)
    (hfail : r.actionsuccess = false ∨ r.loggedin = false ∨
      jsStartsWith r.assertion ";;" = true) :
    (∃ nm asr, (connectRun s rs).2 = .error ("Could not login " ++ nm ++ ": " ++ asr)) ∧
    (connectRun s rs).1.aborted = true ∧
    (∀ p st, st.result = none →
      (awStep p st .timer).result = some (.error .timedOut) ∧
      (awStep p st .timer).listener = false) := by
  have hname : (s.bots.map fun b => b.name).get? i = some bt.name := by
    rw [List.get?_map, hb]; rfl
  have hmem := zip_mem_of_get _ _ i _ _ hname hr
  have hcond : (!r.actionsuccess || !r.loggedin || jsStartsWith r.assertion ";;") = true := by
    rcases hfail with h | h | h <;> simp [h]
  have hfail2 : ∃ e, loginCheck bt.name r = .error e :=
    ⟨"Could not login " ++ bt.name ++ ": " ++ r.assertion, by simp [loginCheck, hcond]⟩
  obtain ⟨nm, rr, hmem2, heq⟩ := connectAll_fails _ s ⟨(bt.name, r), hmem, hfail2⟩
  refine ⟨⟨nm, rr.assertion, by rw [connectRun, heq]⟩, ?_, ?_⟩
  · rw [connectRun, heq]
    exact shutdown_aborted s hws
  · intro p st h0
    constructor
    · simp [awStep, settleErr, abortCtrl, h0]
    · simp [awStep, abortCtrl]

/-- Witness for C3: a two-bot engine with the first login rejected. -/
theorem claim_C3_witness :
    (∃ nm asr, (connectRun exPS [exLoginFail, exLoginOk]).2 =
      .error ("Could not login " ++ nm ++ ": " ++ asr)) ∧
    (connectRun exPS [exLoginFail, exLoginOk]).1.aborted = true ∧
    (∀ p st, st.result = none →
      (awStep p st .timer).result = some (.error .timedOut) ∧
      (awStep p st .timer).listener = false) :=
  claim_C3 exPS [exLoginFail, exLoginOk] 0 ⟨"botA", "pw", some ()⟩ exLoginFail
    (by decide) rfl rfl (Or.inl rfl)

/-- C4 (amended): `battle()` throws the invalid-argument error
immediately, with no command sent on either connection, exactly when the
input type check fires — a missing/non-string `message` or `chalcode`, a
missing side, a missing/non-string `team`, a non-array `usernames`, or a
truthy `confirmed`.  An *empty* `usernames` array passes the check (the
non-emptiness requirement lives in the caller, `generateBattle`), so a
spec with empty candidate sets is not rejected — see the
counterexample. -/
theorem claim_C4 (n0 n1 : String) (b : JSBattle) (q0 : List Q0Msg)
    (s2 s3 s4 s5 : List String) :
    (battleBad b = true →
      battleRun n0 n1 b q0 s2 s3 s4 s5 = ⟨[], [], .error .invalidArg⟩) ∧
    (battleBad b = false →
      (battleRun n0 n1 b q0 s2 s3 s4 s5).result ≠ .error .invalidArg) := by
  constructor
  · intro h
    simp [battleRun, h]
  · intro h
    simp only [battleRun, h, Bool.false_eq_true, if_false]
    cases hp : p1Run (sidesOf b) q0 with
    | rejected r raw b1 => simp
    | timeout b1 => simp
    | matched sd =>
      cases h2 : wsRun (boolPredJS (p2Pred n0 n1)) s2 with
      | error e =>
        simp only []
        intro hcon
        injection hcon with hcon2
        exact wsRun_no_invalid _ _ _ h2 hcon2
      | ok m2 =>
        cases h3 : wsRun (boolPredJS p3Pred) s3 with
        | error e =>
          simp only []
          intro hcon
          injection hcon with hcon2
          exact wsRun_no_invalid _ _ _ h3 hcon2
        | ok m3 => simp

/-- Witness for C4: a spec with every field missing is rejected with the
invalid-argument error and no command is sent. -/
theorem claim_C4_witness :
    battleRun "botA" "botB" exSpecBad [] [] [] [] [] = ⟨[], [], .error .invalidArg⟩ :=
  (claim_C4 "botA" "botB" exSpecBad [] [] [] [] []).1 rfl

/-- C4 is false as stated: a spec whose sides both carry an *empty*
`usernames` array lacks a non-empty username set, yet `battle()` does not
fail with the invalid-spec error — the type check passes (it only
requires an array) and the run proceeds to the player-confirmation wait,
which, with no lookup ever answered, ends in the timeout rejection
instead. -/
theorem claim_C4_counterexample :
    battleBad exSpecEmptyU = false ∧
    (exSpecEmptyU.side1.getD defSide).usernames = some [] ∧
    (exSpecEmptyU.side2.getD defSide).usernames = some [] ∧
    (battleRun "botA" "botB" exSpecEmptyU [] [] [] [] []).result = .error .timedOut ∧
    (Except.error RunErr.timedOut : Except RunErr BattleRet) ≠ .error .invalidArg :=
  ⟨rfl, rfl, rfl, rfl, by simp⟩

/-- C7: while the player-confirmation correlator is live, a `userdetails`
reply whose payload names a candidate username but carries no truthy
`rooms` data rejects the whole choreography with the per-user offline
diagnostic; the run then stops with only the lookup commands sent on
connection A, nothing sent on connection B, and in particular no
challenge command sent on either connection. -/
theorem claim_C7 (n0 n1 : String) (b : JSBattle) (pre rest : List Q0Msg)
    (s2 s3 s4 s5 : List String) (u raw : String) (st : Sides)
    (hv : battleBad b = false)
    (hpre : p1Run (sidesOf b) pre = .timeout st)
    (hfound : truthyStr (jsFind st.u1 u) = true ∨
      (truthyStr (jsFind st.u1 u) = false ∧ truthyStr (jsFind st.u2 u) = true)) :
    (battleRun n0 n1 b (pre ++ .ud raw (some ⟨u, false⟩) :: rest) s2 s3 s4 s5).result =
      .error (.predReject ("User is offline: " ++ u) raw) ∧
    (battleRun n0 n1 b (pre ++ .ud raw (some ⟨u, false⟩) :: rest) s2 s3 s4 s5).sends0 =
      udCmds b ∧
    (battleRun n0 n1 b (pre ++ .ud raw (some ⟨u, false⟩) :: rest) s2 s3 s4 s5).sends1 = [] ∧
    ∀ m ∈ (battleRun n0 n1 b (pre ++ .ud raw (some ⟨u, false⟩) :: rest) s2 s3 s4 s5).sends0,
      ∀ x, m ≠ msgToRaw ("|/challenge " ++ x) := by
  have happ : p1Apply st (some ⟨u, false⟩) = (st, .reject ("User is offline: " ++ u)) := by
    rcases hfound with h1 | ⟨h1, h2⟩
    · simp [p1Apply, h1]
    · simp [p1Apply, h1, h2]
  have hrun : p1Run (sidesOf b) (pre ++ .ud raw (some ⟨u, false⟩) :: rest) =
      .rejected ("User is offline: " ++ u) raw st := by
    rw [p1Run_append, hpre]
    simp [p1Run, happ]
  have hbr : battleRun n0 n1 b (pre ++ .ud raw (some ⟨u, false⟩) :: rest) s2 s3 s4 s5 =
      ⟨udCmds b, [], .error (.predReject ("User is offline: " ++ u) raw)⟩ := by
    simp [battleRun, hv, hrun]
  refine ⟨by rw [hbr], by rw [hbr], by rw [hbr], ?_⟩
  intro m hm x
  rw [hbr] at hm
  simp only [udCmds] at hm
  obtain ⟨u2, _, rfl⟩ := List.mem_map.1 hm
  exact udCmd_ne_chal u2 x

/-- Witness for C7: the single candidate of side 1 is reported offline,
the run rejects with the offline diagnostic for that user and only the
two lookup commands were sent. -/
theorem claim_C7_witness :
    (battleRun "botA" "botB" exSpec
        ([] ++ .ud "r0" (some ⟨"alice", false⟩) :: []) [] [] [] []).result =
      .error (.predReject ("User is offline: " ++ "alice") "r0") ∧
    (battleRun "botA" "botB" exSpec
        ([] ++ .ud "r0" (some ⟨"alice", false⟩) :: []) [] [] [] []).sends0 =
      udCmds exSpec ∧
    (battleRun "botA" "botB" exSpec
        ([] ++ .ud "r0" (some ⟨"alice", false⟩) :: []) [] [] [] []).sends1 = [] ∧
    ∀ m ∈ (battleRun "botA" "botB" exSpec
        ([] ++ .ud "r0" (some ⟨"alice", false⟩) :: []) [] [] [] []).sends0,
      ∀ x, m ≠ msgToRaw ("|/challenge " ++ x) :=
  claim_C7 "botA" "botB" exSpec [] [] [] [] [] [] "alice" "r0" (sidesOf exSpec)
    rfl rfl (Or.inl rfl)

/-- C8: once the player-confirmation and challenge waits have matched and
the session-init broadcast is observed on connection A, `battle()`
resolves with the session URL — the fixed base
`https://play.pokemonshowdown.com/` concatenated with the room identifier
carried by that broadcast — and it does so without consuming the
outcome/replay streams: alongside the URL it hands back the separately
awaitable replay future, and the URL is the same whatever those later
streams deliver. -/
theorem claim_C8 (n0 n1 : String) (b : JSBattle) (q0 : List Q0Msg)
    (s2 s3 s4 s5 : List String) (sd : Sides) (m2 m3 : String)
    (hv : battleBad b = false)
    (h1 : p1Run (sidesOf b) q0 = .matched sd)
    (h2 : wsRun (boolPredJS (p2Pred n0 n1)) s2 = .ok m2)
    (h3 : wsRun (boolPredJS p3Pred) s3 = .ok m3) :
    ∃ ret, (battleRun n0 n1 b q0 s2 s3 s4 s5).result = .ok ret ∧
      ret.room = "https://play.pokemonshowdown.com/" ++ sliceOne (roomOf m3) ∧
      ∀ t4 t5, ∃ ret2, (battleRun n0 n1 b q0 s2 s3 t4 t5).result = .ok ret2 ∧
        ret2.room = ret.room := by
  refine ⟨⟨"https://play.pokemonshowdown.com/" ++ sliceOne (roomOf m3),
    replayFut (sliceOne (roomOf m3)) s4 s5⟩, ?_, rfl, ?_⟩
  · simp [battleRun, hv, h1, h2, h3]
  · intro t4 t5
    refine ⟨⟨"https://play.pokemonshowdown.com/" ++ sliceOne (roomOf m3),
      replayFut (sliceOne (roomOf m3)) t4 t5⟩, ?_, rfl⟩
    simp [battleRun, hv, h1, h2, h3]

/-- Witness for C8: a full concrete run whose session-init broadcast
carries room `battle-x-1`. -/
theorem claim_C8_witness :
    ∃ ret, (battleRun "botA" "botB" exSpec exQ0 [exPm] [exInit] [exWin] [exJunk]).result
        = .ok ret ∧
      ret.room = "https://play.pokemonshowdown.com/" ++ sliceOne (roomOf exInit) ∧
      ∀ t4 t5, ∃ ret2,
        (battleRun "botA" "botB" exSpec exQ0 [exPm] [exInit] t4 t5).result = .ok ret2 ∧
          ret2.room = ret.room :=
  claim_C8 "botA" "botB" exSpec exQ0 [exPm] [exInit] [exWin] [exJunk]
    ⟨["alice"], ["carol"], some "alice", some "carol"⟩ exPm exInit rfl rfl rfl rfl

/-- C2 fails on the code (a slip contradicting the documented replay
notice format): the replay-confirmation pattern is built with unescaped
pipes, so it contains an empty alternative and its `test` accepts *every*
frame — here a plain join frame resolves the `AwaitResultLink` wait; that
frame carries no `href` anchor, so the replay future settles with the
fallback string `this should not have happened` instead of a link.  The
last conjunct shows that even the genuine uploaded-replay notice cannot
yield its link: inside the raw frame the anchor quotes are JSON-escaped,
so the `href="…"` pattern finds no match there either. -/
theorem claim_C2 :
    popupPred "battle-x-1" exJunk = true ∧
    extractHref exJunk = none ∧
    (battleRun "botA" "botB" exSpec exQ0 [exPm] [exInit] [exWin] [exJunk]).result =
      .ok ⟨"https://play.pokemonshowdown.com/battle-x-1",
        .ok "this should not have happened"⟩ ∧
    extractHref
      "a[\"|popup||html|<a href=\\\"https://replay.pokemonshowdown.com/battle-x-1\\\">x</a>\"]"
      = none :=
  ⟨rfl, rfl, rfl, rfl⟩

end PSBots
